import Mathlib

/-!
# fetch-resolver: the rule dispatcher of `resolver-rules.js`

A shallow embedding of `src/packages/fetch-resolver/src/lib/resolver-rules.js`:
the matcher table `ruleMatcher`, the applier table `ruleApply` and the
dispatcher `applyRules`, followed by the properties proved about them.

Conventions of the embedding.

* A JavaScript call either returns a value or raises; it is a value of
  `Except JErr _`.  An `async` applier is represented by the outcome its
  promise settles to, so a rejection and a synchronous `throw` are both
  `Except.error`.
* Functions supplied by the caller (a callable `rule.match` or `rule.apply`)
  are handles interpreted by `Env.call`; they return or raise, a function
  that never returns is outside the embedding.
* `@marcopeg/dotted`, `@marcopeg/template` and `JSON.parse` are not part of
  the file under study; they are fields of `Env`.
* Numbers are integers (the status code of a response), printed in decimal.
-/

namespace FetchResolver

/-! ## Values -/

/-- JavaScript data values: what a parsed JSON body, a rule argument, a
`grab` path or a `shape` template can be. -/
inductive JVal where
  | undefined
  | null
  | bool (b : Bool)
  | num (n : Int)
  | str (s : String)
  | arr (items : List JVal)
  | obj (fields : List (String × JVal))

/-- A raised JavaScript error: the constructor name and the `message`. -/
structure JErr where
  name : String
  message : String
deriving DecidableEq

/-- JavaScript truthiness (`ToBoolean`): `undefined`, `null`, `false`, `0`
and the empty string are falsy, every other value is truthy. -/
def JVal.truthy : JVal → Bool
  | .undefined => false
  | .null => false
  | .bool b => b
  | .num n => n != 0
  | .str s => s != ""
  | .arr _ => true
  | .obj _ => true

mutual
/-- JavaScript `ToString` on data values. -/
def JVal.toStr : JVal → String
  | .undefined => "undefined"
  | .null => "null"
  | .bool b => if b then "true" else "false"
  | .num n => toString n
  | .str s => s
  | .arr items => JVal.joinStr items
  | .obj _ => "[object Object]"
termination_by structural v => v
/-- The text of `Array.prototype.join()`: the elements' strings separated by
commas, `undefined` and `null` elements contributing the empty string. -/
def JVal.joinStr : List JVal → String
  | [] => ""
  | x :: rest =>
    (match x with
     | .undefined => ""
     | .null => ""
     | v => JVal.toStr v) ++ (if rest.isEmpty then "" else ",") ++ JVal.joinStr rest
termination_by structural xs => xs
end

/-- The error made by `new Error(message)`: the message is `ToString` of the
argument, and the empty string when the argument is `undefined`. -/
def newError : JVal → JErr
  | .undefined => ⟨"Error", ""⟩
  | v => ⟨"Error", v.toStr⟩

/-- A `TypeError` raised by the JavaScript engine itself. -/
def typeError (message : String) : JErr := ⟨"TypeError", message⟩

/-! ## Data model -/

/-- The response object: `status`, `statusText` and the outcomes of its two
body readers `text()` and `json()` once awaited. -/
structure Response where
  status : Int
  statusText : String
  text : Except JErr String
  json : Except JErr JVal

/-- The data fields of a response, as a template context sees them. -/
def Response.toJVal (res : Response) : JVal :=
  .obj [("status", .num res.status), ("statusText", .str res.statusText)]

/-- The field `rule.match`: a callable predicate (a handle), or a tagged tuple
`[kind, ...args]`. -/
inductive MatchSpec where
  | callable (fn : Nat)
  | tuple (kind : String) (args : List JVal)

/-- The field `rule.apply`: a callable transform (a handle), or a tagged tuple
`[kind, ...args]`. -/
inductive ApplySpec where
  | callable (fn : Nat)
  | tuple (kind : String) (args : List JVal)

/-- A rule `{ match, apply }`; `match_` is the field `match`. -/
structure Rule where
  match_ : MatchSpec
  apply : ApplySpec

/-- The configuration `{ rules?, grab?, shape? }`; an absent `rules` is `none`,
an absent `grab` or `shape` is `JVal.undefined`. -/
structure Config where
  rules : Option (List Rule)
  grab : JVal
  shape : JVal

/-- The object `{ config, rule, res }` handed to every matcher and applier. -/
structure Ctx where
  config : Config
  rule : Rule
  res : Response

/-- What a matcher or an applier returns: a data value, or the context object
itself (the built-in `Object` returns its argument). -/
inductive Value where
  | data (v : JVal)
  | context (ctx : Ctx)

/-- Truthiness of a returned value; an object is always truthy. -/
def Value.truthy : Value → Bool
  | .data v => v.truthy
  | .context _ => true

/-- The functions `resolver-rules.js` calls but does not define: the two
imported helpers, the built-in `JSON.parse`, and the interpretation of the
caller's function handles. -/
structure Env where
  dotted : JVal → JVal → Except JErr JVal
  template : JVal → JVal → Except JErr JVal
  jsonParse : String → Except JErr JVal
  call : Nat → Ctx → Except JErr Value

/-- A matcher or applier: a function of the context object. -/
abbrev Handler := Ctx → Except JErr Value

/-- The expression `rule.match[i]`: the kind at index 0 and the arguments
after it; `undefined` past the end, and on a function. -/
def Rule.matchAt (rule : Rule) (i : Nat) : JVal :=
  match rule.match_ with
  | .callable _ => .undefined
  | .tuple kind args => (JVal.str kind :: args).getD i .undefined

/-- The expression `rule.apply[i]`: the kind at index 0 and the arguments
after it; `undefined` past the end, and on a function. -/
def Rule.applyAt (rule : Rule) (i : Nat) : JVal :=
  match rule.apply with
  | .callable _ => .undefined
  | .tuple kind args => (JVal.str kind :: args).getD i .undefined

/-! ## Properties inherited from `Object.prototype`

`ruleMatcher` and `ruleApply` are object literals, so `ruleMatcher[key]` also
finds the members every object inherits from `Object.prototype`. -/

/-- The property names of `Object.prototype`. -/
def objectPrototypeKeys : List String :=
  ["constructor", "toString", "toLocaleString", "valueOf", "hasOwnProperty",
   "isPrototypeOf", "propertyIsEnumerable", "__defineGetter__", "__defineSetter__",
   "__lookupGetter__", "__lookupSetter__", "__proto__"]

/-- Calling the member `key` of `Object.prototype` as a plain function
(`this` is `undefined` in module code) on the context object: `constructor`
is `Object` and returns its argument, `toString` returns the tag of
`undefined`, `__proto__` is an object and not callable, and every other
member converts `this` to an object first, which raises. -/
def objectPrototypeCall (key : String) : Handler := fun ctx =>
  if key = "constructor" then .ok (.context ctx)
  else if key = "toString" then .ok (.data (.str "[object Undefined]"))
  else if key = "__proto__" then .error (typeError "object is not a function")
  else .error (typeError "Cannot convert undefined or null to object")

/-- The lookup `table[key]` on an object literal whose own properties are
`own`: an own property, else an inherited one, else `undefined` (`none`). -/
def objectLookup (own : List (String × Handler)) (key : String) : Option Handler :=
  match own.lookup key with
  | some f => some f
  | none => if key ∈ objectPrototypeKeys then some (objectPrototypeCall key) else none

/-! ## The matcher table -/

/-- Does the list hold the characters of `pat` contiguously? -/
def containsChars (pat : List Char) : List Char → Bool
  | [] => pat.isEmpty
  | c :: cs => pat.isPrefixOf (c :: cs) || containsChars pat cs

/-- Is the value the number `status`?  The comparison `SameValueZero` of
`Array.prototype.includes` against a number. -/
def isNumber (status : Int) : JVal → Bool
  | .num m => m == status
  | _ => false

/-- The call `target.includes(status)`: on an array, membership of the number
(`SameValueZero`); on a string, a substring test for the number's decimal
text; anything else has no `includes` to call. -/
def includes (target : JVal) (status : Int) : Except JErr Bool :=
  match target with
  | .arr items => .ok (items.any (isNumber status))
  | .str s => .ok (containsChars (toString status).data s.data)
  | .undefined => .error (typeError "Cannot read properties of undefined (reading includes)")
  | .null => .error (typeError "Cannot read properties of null (reading includes)")
  | _ => .error (typeError "rule.match[1].includes is not a function")

/-- Matcher `all: () => true`. -/
def ruleMatcher.all : Handler := fun _ => .ok (.data (.bool true))

/-- Matcher `status: ({ rule, res }) => rule.match[1].includes(res.status)`. -/
def ruleMatcher.status : Handler := fun ctx => do
  let b ← includes (ctx.rule.matchAt 1) ctx.res.status
  pure (.data (.bool b))

/-- Matcher `statusError: ({ rule, res }) => res.status >= 400`. -/
def ruleMatcher.statusError : Handler := fun ctx =>
  .ok (.data (.bool (decide (ctx.res.status ≥ 400))))

/-- The lookup `ruleMatcher[key]`. -/
def ruleMatcher (key : String) : Option Handler :=
  objectLookup
    [("all", ruleMatcher.all), ("status", ruleMatcher.status),
     ("statusError", ruleMatcher.statusError)] key

/-! ## The applier table -/

/-- Applier `text: async ({ res }) => await res.text()`. -/
def ruleApply.text : Handler := fun ctx => do
  let t ← ctx.res.text
  pure (.data (.str t))

/-- Applier `json`: read the body as JSON, then `template(apply[2],
dotted(data, apply[1]))` when `rule.apply[2]` is truthy, else
`dotted(data, apply[1])`. -/
def ruleApply.json (env : Env) : Handler := fun ctx => do
  let data ← ctx.res.json
  if (ctx.rule.applyAt 2).truthy then
    let sub ← env.dotted data (ctx.rule.applyAt 1)
    let out ← env.template (ctx.rule.applyAt 2) sub
    pure (.data out)
  else
    let sub ← env.dotted data (ctx.rule.applyAt 1)
    pure (.data sub)

/-- Applier `throw`: `throw new Error(template(rule.apply[1], { res }))`. -/
def ruleApply.throw (env : Env) : Handler := fun ctx => do
  let msg ← env.template (ctx.rule.applyAt 1) (.obj [("res", ctx.res.toJVal)])
  .error (newError msg)

/-- An entry `{ type, message: err.message }` of the `errors` array. -/
def errorEntry (type : String) (err : JErr) : JVal :=
  .obj [("type", .str type), ("message", .str err.message)]

/-- Applier `res2json`: read the text, parse it, collect the failures of
either step, and render `rule.apply[1]` against `{ res, text, body, errors }`. -/
def ruleApply.res2json (env : Env) : Handler := fun ctx => do
  let (text, errors) :=
    match ctx.res.text with
    | .ok t => (t, ([] : List JVal))
    | .error err => ("", [errorEntry "text" err])
  let (body, errors) :=
    match env.jsonParse text with
    | .ok b => (b, errors)
    | .error err => (JVal.obj [], errors ++ [errorEntry "body" err])
  let out ← env.template (ctx.rule.applyAt 1)
    (.obj [("res", ctx.res.toJVal), ("text", .str text), ("body", body),
           ("errors", .arr errors)])
  pure (.data out)

/-- Applier `statusError`: throws an error whose message is the template
literal made of `res.status`, one space and `res.statusText`. -/
def ruleApply.statusError : Handler := fun ctx =>
  .error ⟨"Error", toString ctx.res.status ++ " " ++ ctx.res.statusText⟩

/-- Applier `value: ({ rule }) => rule.apply[1]`. -/
def ruleApply.value : Handler := fun ctx => .ok (.data (ctx.rule.applyAt 1))

/-- The own property names of `ruleApply`. -/
def applierNames : List String :=
  ["text", "json", "throw", "res2json", "statusError", "value"]

/-- The own property names of `ruleMatcher`. -/
def matcherNames : List String := ["all", "status", "statusError"]

/-- The lookup `ruleApply[key]`. -/
def ruleApply (env : Env) (key : String) : Option Handler :=
  objectLookup
    [("text", ruleApply.text), ("json", ruleApply.json env),
     ("throw", ruleApply.throw env), ("res2json", ruleApply.res2json env),
     ("statusError", ruleApply.statusError), ("value", ruleApply.value)] key

/-! ## The dispatcher -/

/-- The fallback rule `{ match: ['all'], apply: ['json', config.grab,
config.shape] }`. -/
def fallbackRule (config : Config) : Rule :=
  { match_ := .tuple "all" [], apply := .tuple "json" [config.grab, config.shape] }

/-- The array `rules` of `applyRules`: `config.rules || []` followed by the
fallback rule. -/
def effectiveRules (config : Config) : List Rule :=
  (config.rules.getD []) ++ [fallbackRule config]

/-- The matcher of a rule: `rule.match` itself when it is a function, else
`ruleMatcher[rule.match[0]]`; `none` is `undefined`. -/
def resolveMatcher (env : Env) (rule : Rule) : Option Handler :=
  match rule.match_ with
  | .callable fn => some (env.call fn)
  | .tuple kind _ => ruleMatcher kind

/-- The callback given to `rules.find`: `false` when no matcher resolves or
the matcher returns a falsy value, `true` otherwise. -/
def ruleMatches (env : Env) (config : Config) (res : Response) (rule : Rule) :
    Except JErr Bool :=
  match resolveMatcher env rule with
  | none => .ok false
  | some matcher => do
    let v ← matcher ⟨config, rule, res⟩
    pure v.truthy

/-- The method `Array.prototype.find` with a callback that may raise: the
first element the callback accepts, `none` (`undefined`) when there is none. -/
def find {α : Type} (p : α → Except JErr Bool) : List α → Except JErr (Option α)
  | [] => .ok none
  | x :: xs => do
    if (← p x) then pure (some x) else find p xs

/-- The scan of `applyRules`: `rules.find(...)` over the effective rules. -/
def selectRule (env : Env) (config : Config) (res : Response) :
    Except JErr (Option Rule) :=
  find (ruleMatches env config res) (effectiveRules config)

/-- The applier of a rule: `rule.apply` itself when it is a function, else
`ruleApply[rule.apply[0]]`; `none` is `undefined`. -/
def resolveApplier (env : Env) (rule : Rule) : Option Handler :=
  match rule.apply with
  | .callable fn => some (env.call fn)
  | .tuple kind _ => ruleApply env kind

/-- The error of the guard `if (!apply) throw new Error(...)`: its message is
the template literal naming `rule.apply[0]` and `rule.match[0]`. -/
def unexpectedApply (rule : Rule) : JErr :=
  ⟨"Error", "Unexpected apply \"" ++ (rule.applyAt 0).toStr ++ "\" for the rule \""
    ++ (rule.matchAt 0).toStr ++ "\""⟩

/-- The second half of `applyRules`, on the rule the scan selected: resolve
the applier, raise when there is none, else call it on `{ config, rule, res }`. -/
def applyRule (env : Env) (config : Config) (res : Response) (rule : Rule) :
    Except JErr Value :=
  match resolveApplier env rule with
  | none => .error (unexpectedApply rule)
  | some apply => apply ⟨config, rule, res⟩

/-- The function `applyRules(config, res)`.  Reading `rule.apply` when `find`
returned `undefined` would raise a `TypeError`. -/
def applyRules (env : Env) (config : Config) (res : Response) : Except JErr Value := do
  match (← selectRule env config res) with
  | none => .error (typeError "Cannot read properties of undefined (reading apply)")
  | some rule => applyRule env config res rule

/-! ## The imported helpers, modelled for the worked examples -/

/-- Modelled from the spec: the path syntax of `@marcopeg/dotted`, which is not
in the source tree.  A path is cut at its dots: `data.id` gives `data` and
`id`. -/
def splitPath : List Char → List String
  | [] => [""]
  | c :: cs =>
    match splitPath cs with
    | [] => [""]
    | seg :: segs => if c = '.' then "" :: seg :: segs else String.mk (c :: seg.data) :: segs

/-- Modelled from the spec: one step of `@marcopeg/dotted`, the property
`v[key]` of a data value: a field of an object, `undefined` otherwise. -/
def JVal.field (v : JVal) (key : String) : JVal :=
  match v with
  | .obj fields => (fields.lookup key).getD .undefined
  | _ => .undefined

/-- Modelled from the spec: the dotted-path resolver `@marcopeg/dotted`, which
is not in the source tree.  "Given a nested structure and a path expression,
returns the value at that path", `undefined` on a miss; only string paths are
modelled, any other path resolves to `undefined`. -/
def dottedModel (data : JVal) (path : JVal) : JVal :=
  match path with
  | .str p => (splitPath p.data).foldl JVal.field data
  | _ => .undefined

/-- Modelled from the spec: the blanks around a placeholder name are dropped
by `@marcopeg/template`, as in the placeholder of the header comment of
`resolver-rules.js`. -/
def trimBlanks (cs : List Char) : List Char :=
  ((cs.dropWhile (· = ' ')).reverse.dropWhile (· = ' ')).reverse

/-- Modelled from the spec: where the reader of a string template of
`@marcopeg/template` stands: in plain text, after one
opening brace, inside a placeholder (with the characters read so far), or
after one closing brace inside a placeholder. -/
inductive RenderMode where
  | text
  | opening
  | hole (acc : List Char)
  | closing (acc : List Char)

/-- Modelled from the spec: the rendering of a string template by
`@marcopeg/template`: text is copied, and a
placeholder, two opening braces, a path, two closing braces, is replaced by the
string of the value at that path of the context.  A placeholder that is never
closed is copied as text. -/
def renderChars (ctx : JVal) : List Char → RenderMode → List Char
  | [], .text => []
  | [], .opening => ['\x7b']
  | [], .hole acc => '\x7b' :: '\x7b' :: acc
  | [], .closing acc => '\x7b' :: '\x7b' :: (acc ++ ['\x7d'])
  | c :: cs, .text =>
    if c = '\x7b' then renderChars ctx cs .opening else c :: renderChars ctx cs .text
  | c :: cs, .opening =>
    if c = '\x7b' then renderChars ctx cs (.hole [])
    else '\x7b' :: c :: renderChars ctx cs .text
  | c :: cs, .hole acc =>
    if c = '\x7d' then renderChars ctx cs (.closing acc)
    else renderChars ctx cs (.hole (acc ++ [c]))
  | c :: cs, .closing acc =>
    if c = '\x7d' then
      (dottedModel ctx (.str (String.mk (trimBlanks acc)))).toStr.data
        ++ renderChars ctx cs .text
    else renderChars ctx cs (.hole (acc ++ ['\x7d', c]))

mutual
/-- Modelled from the spec: the template renderer `@marcopeg/template`, which
is not in the source tree.  "Given a template spec and a context object,
substitutes placeholders with values resolved from the context via the same
dotted-path semantics": a string is rendered, the members of an array or an
object are rendered in place, any other value is returned as it is. -/
def templateModel (ctx : JVal) : JVal → JVal
  | .str s => .str (String.mk (renderChars ctx s.data .text))
  | .arr items => .arr (templateItems ctx items)
  | .obj fields => .obj (templateFields ctx fields)
  | .undefined => .undefined
  | .null => .null
  | .bool b => .bool b
  | .num n => .num n
termination_by structural v => v
/-- Modelled from the spec: `@marcopeg/template` on each item of an array
template. -/
def templateItems (ctx : JVal) : List JVal → List JVal
  | [] => []
  | x :: xs => templateModel ctx x :: templateItems ctx xs
termination_by structural xs => xs
/-- Modelled from the spec: `@marcopeg/template` on each field value of an
object template. -/
def templateFields (ctx : JVal) : List (String × JVal) → List (String × JVal)
  | [] => []
  | kv :: rest => (kv.1, templateModel ctx kv.2) :: templateFields ctx rest
termination_by structural fs => fs
end

/-- The environment of the worked examples: the two modelled helpers.  The
examples pass no function, and the only texts they give to `JSON.parse` are
`not json` and the empty string, which are not JSON; the two remaining fields
are fillers, a function returning `undefined` under every handle and a parser
that raises. -/
def exampleEnv : Env where
  dotted := fun data path => .ok (dottedModel data path)
  template := fun tpl ctx => .ok (templateModel ctx tpl)
  jsonParse := fun _ => .error ⟨"SyntaxError", "Unexpected token"⟩
  call := fun _ _ => .ok (.data .undefined)

/-! ## Data of the worked examples -/

/-- The first custom rule of the worked example: status 404 gives `first`. -/
def firstRule : Rule :=
  { match_ := .tuple "status" [.arr [.num 404]], apply := .tuple "value" [.str "first"] }

/-- The second custom rule of the worked example: any status error gives
`second`. -/
def secondRule : Rule :=
  { match_ := .tuple "statusError" [], apply := .tuple "value" [.str "second"] }

/-- A configuration with two custom rules that both match a 404 response. -/
def twoRuleConfig : Config :=
  { rules := some [firstRule, secondRule], grab := .str "x", shape := .undefined }

/-- A 404 response whose body cannot be read. -/
def missingResponse : Response :=
  { status := 404, statusText := "Missing",
    text := .error ⟨"Error", "no body"⟩, json := .error ⟨"Error", "no body"⟩ }

/-- The configuration `{grab: 'data.id'}`. -/
def grabConfig : Config :=
  { rules := none, grab := .str "data.id", shape := .undefined }

/-- The response `{status: 200, json: () => ({data: {id: 42}})}`; it has no
`text` reader. -/
def idResponse : Response :=
  { status := 200, statusText := "",
    text := .error (typeError "res.text is not a function"),
    json := .ok (.obj [("data", .obj [("id", .num 42)])]) }

/-- An environment in which the functions passed by the caller raise. -/
def raisingEnv : Env :=
  { exampleEnv with call := fun _ _ => .error ⟨"Error", "boom"⟩ }

/-- A configuration whose only custom rule has a function as its matcher. -/
def callableConfig : Config :=
  { rules := some [{ match_ := .callable 0, apply := .tuple "value" [.num 1] }],
    grab := .str "data.id", shape := .undefined }

/-- A rule whose matcher is the `status` matcher for the list `[400, 404]`. -/
def badRequestRule : Rule :=
  { match_ := .tuple "status" [.arr [.num 400, .num 404]], apply := .tuple "value" [.null] }

/-- A response with the given status and an unreadable body. -/
def statusResponse (status : Int) : Response :=
  { status := status, statusText := "", text := .error ⟨"Error", "no body"⟩,
    json := .error ⟨"Error", "no body"⟩ }

/-- A rule that always matches and names `toString` as its applier. -/
def toStringApplyRule : Rule :=
  { match_ := .tuple "all" [], apply := .tuple "toString" [] }

/-- The configuration whose only custom rule is `toStringApplyRule`. -/
def toStringApplyConfig : Config :=
  { rules := some [toStringApplyRule], grab := .str "data.id", shape := .undefined }

/-- A rule for status 200 whose applier tuple is `['bogus']`. -/
def bogusRule : Rule :=
  { match_ := .tuple "status" [.arr [.num 200]], apply := .tuple "bogus" [] }

/-- The configuration whose only custom rule is `bogusRule`. -/
def bogusConfig : Config :=
  { rules := some [bogusRule], grab := .str "data.id", shape := .undefined }

/-- A rule that names `toString` as its matcher. -/
def toStringMatchRule : Rule :=
  { match_ := .tuple "toString" [], apply := .tuple "value" [.str "picked"] }

/-- The configuration whose only custom rule is `toStringMatchRule`. -/
def toStringMatchConfig : Config :=
  { rules := some [toStringMatchRule], grab := .str "data.id", shape := .undefined }

/-- A rule that names `valueOf` as its matcher. -/
def valueOfMatchRule : Rule :=
  { match_ := .tuple "valueOf" [], apply := .tuple "value" [.str "picked"] }

/-- The configuration whose only custom rule is `valueOfMatchRule`. -/
def valueOfMatchConfig : Config :=
  { rules := some [valueOfMatchRule], grab := .str "data.id", shape := .undefined }

/-- The rule `{match: ['status', [404]], apply: ['throw', 'not found:
{{res.statusText}}']}`. -/
def notFoundRule : Rule :=
  { match_ := .tuple "status" [.arr [.num 404]],
    apply := .tuple "throw" [.str "not found: \x7b\x7bres.statusText\x7d\x7d"] }

/-- The configuration `{rules: [notFoundRule], grab: 'x'}`. -/
def notFoundConfig : Config :=
  { rules := some [notFoundRule], grab := .str "x", shape := .undefined }

/-- A rule that applies `statusError` to every response. -/
def statusErrorRule : Rule :=
  { match_ := .tuple "all" [], apply := .tuple "statusError" [] }

/-- A rule that applies `json` with the path `data.id` and `false` as its
shape. -/
def falseShapeRule : Rule :=
  { match_ := .tuple "all" [], apply := .tuple "json" [.str "data.id", .bool false] }

/-- A rule that applies `json` with the path `data` and an object shape. -/
def shapedRule : Rule :=
  { match_ := .tuple "all" [],
    apply := .tuple "json" [.str "data", .obj [("key", .str "id-\x7b\x7bid\x7d\x7d")]] }

/-- The variables `text`, `body` and `errors` of `res2json` when its two `try`
blocks are done. -/
structure Res2JsonState where
  text : String
  body : JVal
  errors : List JVal

/-- The two `try` blocks of `res2json`: `text` is the text read, or stays `''`
with a `text` entry pushed; `body` is `JSON.parse(text)`, or stays the empty
object with a `body` entry pushed. -/
def res2jsonState (env : Env) (res : Response) : Res2JsonState :=
  let (text, errors) :=
    match res.text with
    | .ok t => (t, ([] : List JVal))
    | .error err => ("", [errorEntry "text" err])
  match env.jsonParse text with
  | .ok b => { text := text, body := b, errors := errors }
  | .error err => { text := text, body := .obj [], errors := errors ++ [errorEntry "body" err] }

/-- The object `{ res, text, body, errors }` that `res2json` renders its
template against. -/
def res2jsonContext (res : Response) (st : Res2JsonState) : JVal :=
  .obj [("res", res.toJVal), ("text", .str st.text), ("body", st.body),
        ("errors", .arr st.errors)]

/-- A response whose body text is `not json`. -/
def notJsonResponse : Response :=
  { status := 500, statusText := "Server Error", text := .ok "not json",
    json := .error ⟨"SyntaxError", "Unexpected token"⟩ }

/-- The shape `{ err: true, msg: '{{ text }}' }`, after the header comment of
`resolver-rules.js`. -/
def errorShape : JVal :=
  .obj [("err", .bool true), ("msg", .str "\x7b\x7b text \x7d\x7d")]

/-- The rule `{match: ['statusError'], apply: ['statusError']}`. -/
def errorStatusRule : Rule :=
  { match_ := .tuple "statusError" [], apply := .tuple "statusError" [] }

/-- The configuration whose only custom rule is `errorStatusRule`. -/
def errorStatusConfig (grab shape : JVal) : Config :=
  { rules := some [errorStatusRule], grab := grab, shape := shape }

/-- An environment in which every function passed by the caller is
`({ res }) => res.status`. -/
def statusEnv : Env :=
  { exampleEnv with call := fun _ ctx => .ok (.data (.num ctx.res.status)) }

/-- A configuration whose only custom rule always matches and has a function
as its applier. -/
def callableApplyConfig : Config :=
  { rules := some [{ match_ := .tuple "all" [], apply := .callable 0 }],
    grab := .str "data.id", shape := .undefined }

/-- Another 404 response: a different status text and a readable body. -/
def otherMissingResponse : Response :=
  { status := 404, statusText := "Not Found", text := .ok "gone", json := .ok .null }

/-- The rule `{match: ['status'], apply: ['value', 'a']}`: a `status` matcher
with no list. -/
def statusNoListRule : Rule :=
  { match_ := .tuple "status" [], apply := .tuple "value" [.str "a"] }

/-- The rule `{match: ['all'], apply: ['value', 'b']}`. -/
def allValueRule : Rule :=
  { match_ := .tuple "all" [], apply := .tuple "value" [.str "b"] }

/-- The configuration whose custom rules are `statusNoListRule`, then
`allValueRule`. -/
def raisingMatcherConfig : Config :=
  { rules := some [statusNoListRule, allValueRule], grab := .str "data.id",
    shape := .undefined }

/-- An environment whose template renderer raises. -/
def raisingTemplateEnv : Env :=
  { exampleEnv with template := fun _ _ => .error ⟨"Error", "render failed"⟩ }

/-! ## Lemmas on the scan -/

theorem find_cons_true {α : Type} (p : α → Except JErr Bool) (x : α) (xs : List α)
    (h : p x = .ok true) : find p (x :: xs) = .ok (some x) := by
  simp [find, h, bind, Except.bind, pure, Except.pure]

theorem find_cons_false {α : Type} (p : α → Except JErr Bool) (x : α) (xs : List α)
    (h : p x = .ok false) : find p (x :: xs) = find p xs := by
  simp [find, h, bind, Except.bind]

theorem find_cons_error {α : Type} (p : α → Except JErr Bool) (x : α) (xs : List α)
    (e : JErr) (h : p x = .error e) : find p (x :: xs) = .error e := by
  simp [find, h, bind, Except.bind]

/-- The scan returns `x` exactly when `x` is the first element the callback
accepts, every element before it having been rejected without raising. -/
theorem find_eq_some_iff {α : Type} (p : α → Except JErr Bool) (xs : List α) (x : α) :
    find p xs = .ok (some x) ↔
      ∃ pre post, xs = pre ++ x :: post ∧ (∀ y ∈ pre, p y = .ok false) ∧ p x = .ok true := by
  induction xs with
  | nil => simp [find]
  | cons a as ih =>
    cases hpa : p a with
    | error e =>
      rw [find_cons_error p a as e hpa]
      constructor
      · intro h; cases h
      · rintro ⟨pre, post, hsplit, hpre, hx⟩
        cases pre with
        | nil =>
          simp only [List.nil_append, List.cons.injEq] at hsplit
          rw [hsplit.1, hx] at hpa; cases hpa
        | cons b bs =>
          simp only [List.cons_append, List.cons.injEq] at hsplit
          have hb := hpre b (List.mem_cons_self _ _)
          rw [← hsplit.1, hpa] at hb; cases hb
    | ok b =>
      cases b with
      | true =>
        rw [find_cons_true p a as hpa]
        constructor
        · intro h
          have hax : a = x := by simpa using h
          exact ⟨[], as, by simp [hax], by simp, hax ▸ hpa⟩
        · rintro ⟨pre, post, hsplit, hpre, hx⟩
          cases pre with
          | nil =>
            simp only [List.nil_append, List.cons.injEq] at hsplit
            simp [hsplit.1]
          | cons b bs =>
            simp only [List.cons_append, List.cons.injEq] at hsplit
            have hb := hpre b (List.mem_cons_self _ _)
            rw [← hsplit.1, hpa] at hb; cases hb
      | false =>
        rw [find_cons_false p a as hpa, ih]
        constructor
        · rintro ⟨pre, post, hsplit, hpre, hx⟩
          refine ⟨a :: pre, post, by simp [hsplit], ?_, hx⟩
          intro y hy
          rcases List.mem_cons.mp hy with rfl | hy
          · exact hpa
          · exact hpre y hy
        · rintro ⟨pre, post, hsplit, hpre, hx⟩
          cases pre with
          | nil =>
            simp only [List.nil_append, List.cons.injEq] at hsplit
            rw [hsplit.1, hx] at hpa; cases hpa
          | cons b bs =>
            simp only [List.cons_append, List.cons.injEq] at hsplit
            exact ⟨bs, post, hsplit.2, fun y hy => hpre y (List.mem_cons_of_mem _ hy), hx⟩

/-- The scan returns `undefined` exactly when the callback rejects every
element without raising. -/
theorem find_eq_none_iff {α : Type} (p : α → Except JErr Bool) (xs : List α) :
    find p xs = .ok none ↔ ∀ y ∈ xs, p y = .ok false := by
  induction xs with
  | nil => simp [find]
  | cons a as ih =>
    cases hpa : p a with
    | error e =>
      rw [find_cons_error p a as e hpa]
      constructor
      · intro h; cases h
      · intro h
        have := h a (List.mem_cons_self _ _)
        rw [hpa] at this; cases this
    | ok b =>
      cases b with
      | true =>
        rw [find_cons_true p a as hpa]
        constructor
        · intro h; cases h
        · intro h
          have := h a (List.mem_cons_self _ _)
          rw [hpa] at this; cases this
      | false =>
        rw [find_cons_false p a as hpa, ih]
        constructor
        · intro h y hy
          rcases List.mem_cons.mp hy with rfl | hy
          · exact hpa
          · exact h y hy
        · intro h y hy
          exact h y (List.mem_cons_of_mem _ hy)

/-- The scan raises `e` exactly when the callback raises `e` on some element,
every element before it having been rejected without raising. -/
theorem find_eq_error_iff {α : Type} (p : α → Except JErr Bool) (xs : List α) (e : JErr) :
    find p xs = .error e ↔
      ∃ pre x post, xs = pre ++ x :: post ∧ (∀ y ∈ pre, p y = .ok false) ∧ p x = .error e := by
  induction xs with
  | nil => simp [find]
  | cons a as ih =>
    cases hpa : p a with
    | error e2 =>
      rw [find_cons_error p a as e2 hpa]
      constructor
      · intro h
        have he : e2 = e := by simpa using h
        exact ⟨[], a, as, by simp, by simp, he ▸ hpa⟩
      · rintro ⟨pre, x, post, hsplit, hpre, hx⟩
        cases pre with
        | nil =>
          simp only [List.nil_append, List.cons.injEq] at hsplit
          rw [hsplit.1, hx] at hpa
          cases hpa; rfl
        | cons b bs =>
          simp only [List.cons_append, List.cons.injEq] at hsplit
          have hb := hpre b (List.mem_cons_self _ _)
          rw [← hsplit.1, hpa] at hb; cases hb
    | ok b =>
      cases b with
      | true =>
        rw [find_cons_true p a as hpa]
        constructor
        · intro h; cases h
        · rintro ⟨pre, x, post, hsplit, hpre, hx⟩
          cases pre with
          | nil =>
            simp only [List.nil_append, List.cons.injEq] at hsplit
            rw [hsplit.1, hx] at hpa; cases hpa
          | cons b bs =>
            simp only [List.cons_append, List.cons.injEq] at hsplit
            have hb := hpre b (List.mem_cons_self _ _)
            rw [← hsplit.1, hpa] at hb; cases hb
      | false =>
        rw [find_cons_false p a as hpa, ih]
        constructor
        · rintro ⟨pre, x, post, hsplit, hpre, hx⟩
          refine ⟨a :: pre, x, post, by simp [hsplit], ?_, hx⟩
          intro y hy
          rcases List.mem_cons.mp hy with rfl | hy
          · exact hpa
          · exact hpre y hy
        · rintro ⟨pre, x, post, hsplit, hpre, hx⟩
          cases pre with
          | nil =>
            simp only [List.nil_append, List.cons.injEq] at hsplit
            rw [hsplit.1, hx] at hpa; cases hpa
          | cons b bs =>
            simp only [List.cons_append, List.cons.injEq] at hsplit
            exact ⟨bs, x, post, hsplit.2, fun y hy => hpre y (List.mem_cons_of_mem _ hy), hx⟩

/-- Once the scan has selected a rule, `applyRules` is the second half run on
that rule. -/
theorem applyRules_of_select (env : Env) (config : Config) (res : Response) (rule : Rule)
    (h : selectRule env config res = .ok (some rule)) :
    applyRules env config res = applyRule env config res rule := by
  simp [applyRules, h, bind, Except.bind]

/-- An error raised during the scan is the outcome of `applyRules`. -/
theorem applyRules_of_select_error (env : Env) (config : Config) (res : Response) (e : JErr)
    (h : selectRule env config res = .error e) :
    applyRules env config res = .error e := by
  simp [applyRules, h, bind, Except.bind]

/-- Every element of a prefix sits at an index below the prefix length. -/
theorem getElem?_append_cons_mem {α : Type} (pre post : List α) (x : α) (i : Nat) (y : α)
    (hi : i < pre.length) (h : (pre ++ x :: post)[i]? = some y) : y ∈ pre := by
  rw [List.getElem?_append_left hi] at h
  exact List.getElem?_mem h

/-! ## Rule order -/

/-- C1, as amended: `applyRules` scans `config.rules`, then the fallback, in
order.  The rule it selects is the first rule whose matcher returns true, every
rule before it having been rejected without raising: any rule whose matcher
returns true has an index at least that of the selected rule (so of two
matching rules the one with the smaller index wins), and the outcome of
`applyRules` is the outcome of the selected rule's applier.  The scan raises
`e` exactly when a matcher raises `e` with every rule before it rejected; then
no rule is applied, whatever the later matchers return, and `applyRules` raises
`e`. -/
theorem applyRules_applies_first_match (env : Env) (config : Config) (res : Response)
    (rule : Rule) :
    (selectRule env config res = .ok (some rule) ↔
      ∃ pre post, effectiveRules config = pre ++ rule :: post ∧
        (∀ r ∈ pre, ruleMatches env config res r = .ok false) ∧
        ruleMatches env config res rule = .ok true ∧
        (∀ i r, (effectiveRules config)[i]? = some r →
          ruleMatches env config res r = .ok true → pre.length ≤ i)) ∧
    (selectRule env config res = .ok (some rule) →
      applyRules env config res = applyRule env config res rule) ∧
    (∀ e, selectRule env config res = .error e ↔
      ∃ pre x post, effectiveRules config = pre ++ x :: post ∧
        (∀ r ∈ pre, ruleMatches env config res r = .ok false) ∧
        ruleMatches env config res x = .error e) ∧
    (∀ e, selectRule env config res = .error e → applyRules env config res = .error e) := by
  refine ⟨?_, applyRules_of_select env config res rule, ?_,
    fun e => applyRules_of_select_error env config res e⟩
  · unfold selectRule
    rw [find_eq_some_iff]
    constructor
    · rintro ⟨pre, post, hsplit, hpre, hrule⟩
      refine ⟨pre, post, hsplit, hpre, hrule, ?_⟩
      intro i r hi hr
      by_contra hlt
      have hmem : r ∈ pre :=
        getElem?_append_cons_mem pre post rule i r (Nat.lt_of_not_le hlt) (hsplit ▸ hi)
      rw [hpre r hmem] at hr
      cases hr
    · rintro ⟨pre, post, hsplit, hpre, hrule, _⟩
      exact ⟨pre, post, hsplit, hpre, hrule⟩
  · intro e
    unfold selectRule
    exact find_eq_error_iff _ _ e

/-- C1 on an example: `firstRule` and `secondRule` both match a 404 response,
and the rule selected and applied is `firstRule`, the earlier of the two. -/
theorem applyRules_applies_first_match_witness :
    ruleMatches exampleEnv twoRuleConfig missingResponse firstRule = .ok true ∧
    ruleMatches exampleEnv twoRuleConfig missingResponse secondRule = .ok true ∧
    selectRule exampleEnv twoRuleConfig missingResponse = .ok (some firstRule) ∧
    applyRules exampleEnv twoRuleConfig missingResponse = .ok (.data (.str "first")) := by
  have h := applyRules_applies_first_match exampleEnv twoRuleConfig missingResponse firstRule
  have hsel : selectRule exampleEnv twoRuleConfig missingResponse = .ok (some firstRule) :=
    h.1.mpr ⟨[], [secondRule, fallbackRule twoRuleConfig], rfl, by simp, rfl, by simp⟩
  refine ⟨rfl, rfl, hsel, ?_⟩
  rw [h.2.1 hsel]
  rfl

/-- C1 as stated fails: the matcher of the first rule, `['status']` with no
list, raises; the second rule is the first rule whose matcher returns true and
its applier would return `b`, yet `applyRules` applies no rule and raises the
matcher's `TypeError`. -/
theorem applyRules_raises_before_first_match :
    ruleMatches exampleEnv raisingMatcherConfig idResponse statusNoListRule =
      .error (typeError "Cannot read properties of undefined (reading includes)") ∧
    ruleMatches exampleEnv raisingMatcherConfig idResponse allValueRule = .ok true ∧
    applyRule exampleEnv raisingMatcherConfig idResponse allValueRule =
      .ok (.data (.str "b")) ∧
    applyRules exampleEnv raisingMatcherConfig idResponse =
      .error (typeError "Cannot read properties of undefined (reading includes)") ∧
    applyRules exampleEnv raisingMatcherConfig idResponse ≠
      applyRule exampleEnv raisingMatcherConfig idResponse allValueRule := by
  have h1 : applyRules exampleEnv raisingMatcherConfig idResponse =
      .error (typeError "Cannot read properties of undefined (reading includes)") := rfl
  have h2 : applyRule exampleEnv raisingMatcherConfig idResponse allValueRule =
      .ok (.data (.str "b")) := rfl
  refine ⟨rfl, rfl, h2, h1, ?_⟩
  rw [h1, h2]
  intro h
  cases h

/-! ## The fallback rule -/

/-- The matcher of the fallback rule returns true on every response. -/
theorem ruleMatches_fallback (env : Env) (config : Config) (res : Response) :
    ruleMatches env config res (fallbackRule config) = .ok true := rfl

/-- The applier of the fallback rule is the `json` applier. -/
theorem applyRule_fallback (env : Env) (config : Config) (res : Response) :
    applyRule env config res (fallbackRule config) =
      ruleApply.json env ⟨config, fallbackRule config, res⟩ := rfl

/-- C2: the effective rule list is `config.rules` in the given order (nothing
when `config.rules` is absent) followed by the one fallback rule
`{match: ['all'], apply: ['json', config.grab, config.shape]}`; and when no
custom rule matches, the fallback is selected and `applyRules` is the `json`
applier run on it, that is with path `config.grab` and shape `config.shape`. -/
theorem applyRules_fallback (env : Env) (config : Config) (res : Response)
    (hnone : ∀ r ∈ config.rules.getD [], ruleMatches env config res r = .ok false) :
    effectiveRules config =
        config.rules.getD [] ++
          [{ match_ := .tuple "all" [], apply := .tuple "json" [config.grab, config.shape] }] ∧
    (config.rules = none → effectiveRules config = [fallbackRule config]) ∧
    selectRule env config res = .ok (some (fallbackRule config)) ∧
    (fallbackRule config).applyAt 1 = config.grab ∧
    (fallbackRule config).applyAt 2 = config.shape ∧
    applyRules env config res = ruleApply.json env ⟨config, fallbackRule config, res⟩ := by
  have hsel : selectRule env config res = .ok (some (fallbackRule config)) := by
    unfold selectRule
    rw [find_eq_some_iff]
    exact ⟨config.rules.getD [], [], rfl, hnone, ruleMatches_fallback env config res⟩
  refine ⟨rfl, ?_, hsel, rfl, rfl, ?_⟩
  · intro h
    simp [effectiveRules, h]
  · rw [applyRules_of_select env config res _ hsel, applyRule_fallback]

/-- C2 on the scenario of the specification: with the modelled `dotted`,
config `{grab: 'data.id'}` on a response whose JSON is `{data: {id: 42}}`
selects the fallback and yields 42. -/
theorem applyRules_fallback_witness :
    (∀ r ∈ grabConfig.rules.getD [], ruleMatches exampleEnv grabConfig idResponse r = .ok false) ∧
    selectRule exampleEnv grabConfig idResponse = .ok (some (fallbackRule grabConfig)) ∧
    applyRules exampleEnv grabConfig idResponse = .ok (.data (.num 42)) := by
  have hnone : ∀ r ∈ grabConfig.rules.getD [],
      ruleMatches exampleEnv grabConfig idResponse r = .ok false := by
    intro r hr
    simp [grabConfig] at hr
  have h := applyRules_fallback exampleEnv grabConfig idResponse hnone
  refine ⟨hnone, h.2.2.1, ?_⟩
  rw [h.2.2.2.2.2]
  rfl

/-! ## Coverage -/

/-- The scan never ends with `undefined`: the fallback rule is accepted when
every rule before it was rejected. -/
theorem selectRule_ne_none (env : Env) (config : Config) (res : Response) :
    selectRule env config res ≠ .ok none := by
  intro h
  unfold selectRule at h
  rw [find_eq_none_iff] at h
  have hf := h (fallbackRule config) (by simp [effectiveRules])
  rw [ruleMatches_fallback] at hf
  cases hf

/-- A rule the scan selects is a rule of the effective list. -/
theorem selectRule_mem (env : Env) (config : Config) (res : Response) (rule : Rule)
    (h : selectRule env config res = .ok (some rule)) : rule ∈ effectiveRules config := by
  unfold selectRule at h
  rw [find_eq_some_iff] at h
  obtain ⟨pre, post, hsplit, _, _⟩ := h
  rw [hsplit]
  simp

/-- An error of the scan was raised by the matcher of a custom rule. -/
theorem selectRule_error_custom (env : Env) (config : Config) (res : Response) (e : JErr)
    (h : selectRule env config res = .error e) :
    ∃ r ∈ config.rules.getD [], ruleMatches env config res r = .error e := by
  unfold selectRule at h
  rw [find_eq_error_iff] at h
  obtain ⟨pre, x, post, hsplit, _, hx⟩ := h
  have hmem : x ∈ effectiveRules config := by rw [hsplit]; simp
  simp only [effectiveRules, List.mem_append, List.mem_singleton] at hmem
  rcases hmem with hmem | hmem
  · exact ⟨x, hmem, hx⟩
  · rw [hmem, ruleMatches_fallback] at hx
    cases hx

/-- C3, as amended: `applyRules` ends with a returned value or a raised error;
the scan either raises the error a custom rule's matcher raised, which is
then the outcome of `applyRules`, or selects a rule of the effective list; it
never ends with no rule selected, so the applier is never looked up on a
missing rule; and when no custom matcher raises, a rule is selected. -/
theorem applyRules_selects_or_raises (env : Env) (config : Config) (res : Response) :
    ((∃ v, applyRules env config res = .ok v) ∨ (∃ e, applyRules env config res = .error e)) ∧
    selectRule env config res ≠ .ok none ∧
    ((∃ rule, rule ∈ effectiveRules config ∧ selectRule env config res = .ok (some rule) ∧
        applyRules env config res = applyRule env config res rule) ∨
     (∃ e, selectRule env config res = .error e ∧ applyRules env config res = .error e ∧
        ∃ r ∈ config.rules.getD [], ruleMatches env config res r = .error e)) ∧
    ((∀ r ∈ config.rules.getD [], ∀ e, ruleMatches env config res r ≠ .error e) →
      ∃ rule, selectRule env config res = .ok (some rule)) := by
  have hcases : (∃ rule, selectRule env config res = .ok (some rule)) ∨
      (∃ e, selectRule env config res = .error e) := by
    cases hs : selectRule env config res with
    | error e => exact Or.inr ⟨e, rfl⟩
    | ok o =>
      cases o with
      | none => exact absurd hs (selectRule_ne_none env config res)
      | some rule => exact Or.inl ⟨rule, rfl⟩
  refine ⟨?_, selectRule_ne_none env config res, ?_, ?_⟩
  · cases ha : applyRules env config res with
    | error e => exact Or.inr ⟨e, rfl⟩
    | ok v => exact Or.inl ⟨v, rfl⟩
  · rcases hcases with ⟨rule, hs⟩ | ⟨e, hs⟩
    · exact Or.inl ⟨rule, selectRule_mem env config res rule hs, hs,
        applyRules_of_select env config res rule hs⟩
    · exact Or.inr ⟨e, hs, applyRules_of_select_error env config res e hs,
        selectRule_error_custom env config res e hs⟩
  · intro hno
    rcases hcases with h | ⟨e, hs⟩
    · exact h
    · obtain ⟨r, hr, hre⟩ := selectRule_error_custom env config res e hs
      exact absurd hre (hno r hr e)

/-- C3 as stated fails: when the matcher of a custom rule raises, the scan
selects no rule, the fallback included, and `applyRules` raises that error. -/
theorem selectRule_raises_without_selecting :
    selectRule raisingEnv callableConfig idResponse = .error ⟨"Error", "boom"⟩ ∧
    (¬ ∃ rule, selectRule raisingEnv callableConfig idResponse = .ok (some rule)) ∧
    applyRules raisingEnv callableConfig idResponse = .error ⟨"Error", "boom"⟩ := by
  have hs : selectRule raisingEnv callableConfig idResponse = .error ⟨"Error", "boom"⟩ := rfl
  refine ⟨hs, ?_, rfl⟩
  rintro ⟨rule, h⟩
  rw [hs] at h
  cases h

/-! ## The matchers -/

/-- The `status` matcher of a rule whose `match[1]` is an array is the
membership test of the status in that array. -/
theorem ruleMatches_status (env : Env) (config : Config) (res : Response)
    (list rest : List JVal) (apply : ApplySpec) :
    ruleMatches env config res { match_ := .tuple "status" (.arr list :: rest), apply := apply } =
      .ok (list.any (isNumber res.status)) := rfl

/-- C4: for a rule whose match is `['status', list]`, the matcher found for it
is the `status` matcher, it returns without raising, and it returns true if
and only if `res.status` is a member of `list`; `['status', [400, 404]]`
matches status 404 and does not match status 401. -/
theorem status_matcher_iff_member (env : Env) (config : Config) (res : Response)
    (list rest : List JVal) (apply : ApplySpec) :
    (∃ b, ruleMatches env config res
        { match_ := .tuple "status" (.arr list :: rest), apply := apply } = .ok b ∧
      (b = true ↔ JVal.num res.status ∈ list)) ∧
    ruleMatches env config (statusResponse 404) badRequestRule = .ok true ∧
    ruleMatches env config (statusResponse 401) badRequestRule = .ok false := by
  refine ⟨⟨_, ruleMatches_status env config res list rest apply, ?_⟩, rfl, rfl⟩
  rw [List.any_eq_true]
  constructor
  · rintro ⟨x, hx, hb⟩
    cases x with
    | num m =>
      have hm : m = res.status := by simpa [isNumber] using hb
      rw [← hm]; exact hx
    | undefined => cases hb
    | null => cases hb
    | bool _ => cases hb
    | str _ => cases hb
    | arr _ => cases hb
    | obj _ => cases hb
  · intro h
    exact ⟨JVal.num res.status, h, by simp [isNumber]⟩

/-- C5: for a rule whose match is `['statusError', ...args]`, whatever the
arguments, the matcher returns without raising, and it returns true if and
only if `res.status >= 400`; status 400 matches and status 399 does not. -/
theorem statusError_matcher_iff (env : Env) (config : Config) (res : Response)
    (args : List JVal) (apply : ApplySpec) :
    (∃ b, ruleMatches env config res
        { match_ := .tuple "statusError" args, apply := apply } = .ok b ∧
      (b = true ↔ res.status ≥ 400)) ∧
    ruleMatches env config (statusResponse 400)
      { match_ := .tuple "statusError" args, apply := apply } = .ok true ∧
    ruleMatches env config (statusResponse 399)
      { match_ := .tuple "statusError" args, apply := apply } = .ok false := by
  refine ⟨⟨decide (res.status ≥ 400), rfl, ?_⟩, rfl, rfl⟩
  simp

/-! ## Names the tables do not define -/

/-- A key that is not among the keys of an association list is not found. -/
theorem lookup_eq_none_of_not_mem (own : List (String × Handler)) (key : String)
    (h : key ∉ own.map Prod.fst) : own.lookup key = none := by
  induction own with
  | nil => rfl
  | cons kv rest ih =>
    obtain ⟨k, f⟩ := kv
    simp only [List.map_cons, List.mem_cons, not_or] at h
    have hk : (key == k) = false := by simpa using h.1
    simp only [List.lookup, hk]
    exact ih h.2

/-- A key that is neither an own property nor a property of
`Object.prototype` is not found by the lookup on an object literal. -/
theorem objectLookup_eq_none (own : List (String × Handler)) (key : String)
    (hown : key ∉ own.map Prod.fst) (hproto : key ∉ objectPrototypeKeys) :
    objectLookup own key = none := by
  simp [objectLookup, lookup_eq_none_of_not_mem own key hown, hproto]

/-- A key that is neither an own property nor a property of
`Object.prototype` is not found in the applier table. -/
theorem ruleApply_eq_none (env : Env) (kind : String)
    (hown : kind ∉ applierNames) (hproto : kind ∉ objectPrototypeKeys) :
    ruleApply env kind = none :=
  objectLookup_eq_none _ kind hown hproto

/-- A key that is neither an own property nor a property of
`Object.prototype` is not found in the matcher table. -/
theorem ruleMatcher_eq_none (kind : String)
    (hown : kind ∉ matcherNames) (hproto : kind ∉ objectPrototypeKeys) :
    ruleMatcher kind = none :=
  objectLookup_eq_none _ kind hown hproto

/-- An applier name that no object property answers to: the selected rule
fails with the error naming `apply[0]` and `match[0]`, and no applier runs. -/
theorem applyRule_unknown_applier (env : Env) (config : Config) (res : Response)
    (m : MatchSpec) (kind : String) (args : List JVal)
    (hown : kind ∉ applierNames) (hproto : kind ∉ objectPrototypeKeys) :
    resolveApplier env { match_ := m, apply := .tuple kind args } = none ∧
    applyRule env config res { match_ := m, apply := .tuple kind args } =
      .error ⟨"Error", "Unexpected apply \"" ++ kind ++ "\" for the rule \""
        ++ (Rule.matchAt { match_ := m, apply := .tuple kind args } 0).toStr ++ "\""⟩ := by
  have h : resolveApplier env { match_ := m, apply := .tuple kind args } = none :=
    ruleApply_eq_none env kind hown hproto
  refine ⟨h, ?_⟩
  simp only [applyRule, h]
  rfl

/-- The scenario of the specification: the applier tuple `['bogus']` on a
matching rule raises the error naming `bogus` and the matcher kind. -/
theorem applyRules_bogus :
    applyRules exampleEnv bogusConfig idResponse =
      .error ⟨"Error", "Unexpected apply \"bogus\" for the rule \"status\""⟩ := by
  have hsel : selectRule exampleEnv bogusConfig idResponse = .ok (some bogusRule) := rfl
  rw [applyRules_of_select _ _ _ _ hsel]
  exact (applyRule_unknown_applier exampleEnv bogusConfig idResponse
    (.tuple "status" [.arr [.num 200]]) "bogus" [] (by decide) (by decide)).2

/-- C6 on the failing input: `toString` is not a name of the applier table,
yet the rule whose applier tuple is `['toString']` is applied without error:
the lookup finds `Object.prototype.toString`, the guard passes, the function
is called and `applyRules` returns its string. -/
theorem applyRules_inherited_applier :
    "toString" ∉ applierNames ∧
    selectRule exampleEnv toStringApplyConfig idResponse = .ok (some toStringApplyRule) ∧
    applyRules exampleEnv toStringApplyConfig idResponse =
      .ok (.data (.str "[object Undefined]")) ∧
    applyRules exampleEnv toStringApplyConfig idResponse ≠
      .error (unexpectedApply toStringApplyRule) := by
  refine ⟨by decide, rfl, rfl, ?_⟩
  intro h
  have h2 : applyRules exampleEnv toStringApplyConfig idResponse =
      .ok (.data (.str "[object Undefined]")) := rfl
  rw [h2] at h
  cases h

/-- A matcher kind that no object property answers to: the rule is rejected
without error, and the scan goes on with the rules after it. -/
theorem ruleMatches_unknown_kind (env : Env) (config : Config) (res : Response)
    (kind : String) (args : List JVal) (apply : ApplySpec) (rest : List Rule)
    (hown : kind ∉ matcherNames) (hproto : kind ∉ objectPrototypeKeys) :
    ruleMatches env config res { match_ := .tuple kind args, apply := apply } = .ok false ∧
    find (ruleMatches env config res) ({ match_ := .tuple kind args, apply := apply } :: rest) =
      find (ruleMatches env config res) rest := by
  have h : ruleMatches env config res { match_ := .tuple kind args, apply := apply } =
      .ok false := by
    simp [ruleMatches, resolveMatcher, ruleMatcher_eq_none kind hown hproto]
  exact ⟨h, find_cons_false _ _ _ h⟩

/-- C7 on the failing inputs: `toString` and `valueOf` are not names of the
matcher table.  The rule whose match is `['toString']` is selected and
applied, where skipping it would have given the fallback result 42; the rule
whose match is `['valueOf']` makes the scan raise a `TypeError`. -/
theorem applyRules_inherited_matcher :
    "toString" ∉ matcherNames ∧ "valueOf" ∉ matcherNames ∧
    ruleMatches exampleEnv toStringMatchConfig idResponse toStringMatchRule = .ok true ∧
    selectRule exampleEnv toStringMatchConfig idResponse = .ok (some toStringMatchRule) ∧
    applyRules exampleEnv toStringMatchConfig idResponse = .ok (.data (.str "picked")) ∧
    applyRule exampleEnv toStringMatchConfig idResponse (fallbackRule toStringMatchConfig) =
      .ok (.data (.num 42)) ∧
    applyRules exampleEnv valueOfMatchConfig idResponse =
      .error (typeError "Cannot convert undefined or null to object") := by
  refine ⟨by decide, by decide, rfl, rfl, rfl, rfl, rfl⟩

/-! ## The appliers that raise -/

/-- C8: a rule whose apply is `['throw', tpl]` never returns a value: when the
template renders, the error raised is `new Error` of the rendering of `tpl`
against `{res}`, so its message is the rendered string; when the renderer
itself raises, that error is raised.  On the scenario of the specification,
with the modelled renderer, `applyRules` raises "not found: Missing". -/
theorem throw_applier_raises (env : Env) (config : Config) (res : Response)
    (m : MatchSpec) (tpl : JVal) (rest : List JVal) :
    (∀ v, applyRule env config res { match_ := m, apply := .tuple "throw" (tpl :: rest) }
        ≠ .ok v) ∧
    (∀ out, env.template tpl (.obj [("res", res.toJVal)]) = .ok out →
      applyRule env config res { match_ := m, apply := .tuple "throw" (tpl :: rest) }
        = .error (newError out)) ∧
    (∀ s, env.template tpl (.obj [("res", res.toJVal)]) = .ok (.str s) →
      applyRule env config res { match_ := m, apply := .tuple "throw" (tpl :: rest) }
        = .error ⟨"Error", s⟩) ∧
    (∀ e, env.template tpl (.obj [("res", res.toJVal)]) = .error e →
      applyRule env config res { match_ := m, apply := .tuple "throw" (tpl :: rest) }
        = .error e) ∧
    selectRule exampleEnv notFoundConfig missingResponse = .ok (some notFoundRule) ∧
    applyRules exampleEnv notFoundConfig missingResponse =
      .error ⟨"Error", "not found: Missing"⟩ := by
  have hstep : applyRule env config res
      { match_ := m, apply := .tuple "throw" (tpl :: rest) } =
      (env.template tpl (.obj [("res", res.toJVal)])).bind fun msg => .error (newError msg) :=
    rfl
  refine ⟨?_, ?_, ?_, ?_, rfl, rfl⟩
  · intro v hv
    rw [hstep] at hv
    cases ht : env.template tpl (.obj [("res", res.toJVal)]) with
    | error e => rw [ht] at hv; cases hv
    | ok out => rw [ht] at hv; cases hv
  · intro out ht
    rw [hstep, ht]; rfl
  · intro s ht
    rw [hstep, ht]; rfl
  · intro e ht
    rw [hstep, ht]; rfl

/-- C9, as amended: a rule whose apply is `['statusError', ...]` never returns
a value; it raises an error whose message is the decimal text of `res.status`,
one space, and `res.statusText`. -/
theorem statusError_applier_message (env : Env) (config : Config) (res : Response)
    (m : MatchSpec) (args : List JVal) :
    applyRule env config res { match_ := m, apply := .tuple "statusError" args } =
      .error ⟨"Error", toString res.status ++ " " ++ res.statusText⟩ ∧
    ruleApply.statusError ⟨config, { match_ := m, apply := .tuple "statusError" args }, res⟩ =
      .error ⟨"Error", toString res.status ++ " " ++ res.statusText⟩ :=
  ⟨rfl, rfl⟩

/-- C9 as stated fails: for status 404 and status text "Missing" the message
is "404 Missing", with a space, and not the status text put immediately after
the status code. -/
theorem statusError_message_has_space :
    applyRule exampleEnv grabConfig missingResponse statusErrorRule =
      .error ⟨"Error", "404 Missing"⟩ ∧
    applyRule exampleEnv grabConfig missingResponse statusErrorRule ≠
      .error ⟨"Error", toString missingResponse.status ++ missingResponse.statusText⟩ := by
  have h : applyRule exampleEnv grabConfig missingResponse statusErrorRule =
      .error ⟨"Error", "404 Missing"⟩ := rfl
  refine ⟨h, ?_⟩
  rw [h]
  intro hc
  have hm : ("404 Missing" : String) = toString missingResponse.status ++
      missingResponse.statusText := by
    injection hc with hc
    injection hc
  exact absurd hm (by decide)

/-! ## The `json` applier -/

/-- C10, as amended: for a response whose body parses to `data`, a rule whose
apply is `['json', path]` returns `dotted(data, path)`; with a third element
`shape` it returns `dotted(data, path)` as well when `shape` is falsy, and
`template(shape, dotted(data, path))` when `shape` is truthy.  An error of
`dotted` or of `template` is raised in its place. -/
theorem json_applier_result (env : Env) (config : Config) (res : Response) (m : MatchSpec)
    (path shape : JVal) (rest : List JVal) (data : JVal) (hdata : res.json = .ok data) :
    applyRule env config res { match_ := m, apply := .tuple "json" [path] } =
      (env.dotted data path).map Value.data ∧
    (shape.truthy = false →
      applyRule env config res { match_ := m, apply := .tuple "json" (path :: shape :: rest) } =
        (env.dotted data path).map Value.data) ∧
    (shape.truthy = true →
      applyRule env config res { match_ := m, apply := .tuple "json" (path :: shape :: rest) } =
        ((env.dotted data path).bind (env.template shape)).map Value.data) := by
  refine ⟨?_, ?_, ?_⟩
  · show ruleApply.json env ⟨config, _, res⟩ = _
    simp only [ruleApply.json, hdata, Rule.applyAt, List.getD, List.get?, Option.getD,
      JVal.truthy, bind, Except.bind, pure, Except.pure]
    cases env.dotted data path <;> rfl
  · intro hs
    show ruleApply.json env ⟨config, _, res⟩ = _
    simp only [ruleApply.json, hdata, Rule.applyAt, List.getD, List.get?, Option.getD,
      hs, bind, Except.bind, pure, Except.pure]
    cases env.dotted data path <;> rfl
  · intro hs
    show ruleApply.json env ⟨config, _, res⟩ = _
    simp only [ruleApply.json, hdata, Rule.applyAt, List.getD, List.get?, Option.getD,
      hs, bind, Except.bind, pure, Except.pure]
    cases env.dotted data path with
    | error e => rfl
    | ok sub =>
      simp only [Except.map]
      cases env.template shape sub <;> rfl

/-- C10 on examples, with the modelled helpers: the body `{data: {id: 42}}`
and the path `data.id` give 42 when there is no shape, and the path `data`
with the shape `{key: 'id-{{id}}'}` gives `{key: 'id-42'}`. -/
theorem json_applier_result_witness :
    idResponse.json = .ok (.obj [("data", .obj [("id", .num 42)])]) ∧
    applyRule exampleEnv grabConfig idResponse
      { match_ := .tuple "all" [], apply := .tuple "json" [.str "data.id"] } =
      .ok (.data (.num 42)) ∧
    applyRule exampleEnv grabConfig idResponse shapedRule =
      .ok (.data (.obj [("key", .str "id-42")])) := by
  have h := json_applier_result exampleEnv grabConfig idResponse (.tuple "all" [])
    (.str "data") (.obj [("key", .str "id-\x7b\x7bid\x7d\x7d")]) []
    (.obj [("data", .obj [("id", .num 42)])]) rfl
  refine ⟨rfl, rfl, ?_⟩
  have h3 := h.2.2 rfl
  exact h3.trans rfl

/-- C10 as stated fails: with `false` given as the third element of the apply
tuple, the `json` applier returns the resolved value 42, not the rendering of
that shape, which is `false`. -/
theorem json_applier_ignores_falsy_shape :
    falseShapeRule.applyAt 2 = .bool false ∧
    applyRule exampleEnv grabConfig idResponse falseShapeRule = .ok (.data (.num 42)) ∧
    exampleEnv.template (.bool false) (.num 42) = .ok (.bool false) ∧
    applyRule exampleEnv grabConfig idResponse falseShapeRule ≠
      ((exampleEnv.dotted (.obj [("data", .obj [("id", .num 42)])]) (.str "data.id")).bind
        (exampleEnv.template (.bool false))).map Value.data := by
  refine ⟨rfl, rfl, rfl, ?_⟩
  intro h
  have h1 : applyRule exampleEnv grabConfig idResponse falseShapeRule =
      .ok (.data (.num 42)) := rfl
  have h2 : ((exampleEnv.dotted (.obj [("data", .obj [("id", .num 42)])])
      (.str "data.id")).bind (exampleEnv.template (.bool false))).map Value.data =
      .ok (.data (.bool false)) := rfl
  rw [h1, h2] at h
  cases h

/-! ## The `res2json` applier -/

/-- The `res2json` applier renders `rule.apply[1]` against the context built
from the state its two `try` blocks leave. -/
theorem res2json_eq_render (env : Env) (ctx : Ctx) :
    ruleApply.res2json env ctx =
      (env.template (ctx.rule.applyAt 1)
        (res2jsonContext ctx.res (res2jsonState env ctx.res))).map Value.data := by
  unfold ruleApply.res2json res2jsonState res2jsonContext
  cases ht : ctx.res.text with
  | error e1 =>
    cases hp : env.jsonParse "" with
    | error e2 =>
      simp only [hp, bind, Except.bind, pure, Except.pure, Except.map]
    | ok b =>
      simp only [hp, bind, Except.bind, pure, Except.pure, Except.map]
  | ok t =>
    cases hp : env.jsonParse t with
    | error e2 =>
      simp only [hp, bind, Except.bind, pure, Except.pure, Except.map]
    | ok b =>
      simp only [hp, bind, Except.bind, pure, Except.pure, Except.map]

/-- A rule whose apply is `['res2json', tpl, ...]` is applied by rendering
`tpl` against the context of `res2json`. -/
theorem applyRule_res2json (env : Env) (config : Config) (res : Response) (m : MatchSpec)
    (tpl : JVal) (rest : List JVal) :
    applyRule env config res { match_ := m, apply := .tuple "res2json" (tpl :: rest) } =
      (env.template tpl (res2jsonContext res (res2jsonState env res))).map Value.data :=
  res2json_eq_render env ⟨config, { match_ := m, apply := .tuple "res2json" (tpl :: rest) }, res⟩

/-- C11, as amended: for a response whose body text `t` is read but is not
JSON (the parse raises `e`), a rule whose apply is `['res2json', tpl]` does not
raise the parse error: its outcome is the outcome of rendering `tpl` against
`{res, text, body, errors}` where `text` is `t`, `body` is the empty object and
`errors` holds the one entry of type `body`; what the renderer returns is
returned, and an error is raised only when the renderer raises it. -/
theorem res2json_malformed_body (env : Env) (config : Config) (res : Response)
    (m : MatchSpec) (tpl : JVal) (rest : List JVal) (t : String) (e : JErr)
    (htext : res.text = .ok t) (hparse : env.jsonParse t = .error e) :
    applyRule env config res { match_ := m, apply := .tuple "res2json" (tpl :: rest) } =
      (env.template tpl
        (.obj [("res", res.toJVal), ("text", .str t), ("body", .obj []),
               ("errors", .arr [.obj [("type", .str "body"), ("message", .str e.message)]])])
        ).map Value.data ∧
    (∀ out, env.template tpl
        (.obj [("res", res.toJVal), ("text", .str t), ("body", .obj []),
               ("errors", .arr [.obj [("type", .str "body"), ("message", .str e.message)]])])
          = .ok out →
      applyRule env config res { match_ := m, apply := .tuple "res2json" (tpl :: rest) } =
        .ok (.data out)) ∧
    (∀ e2, applyRule env config res
        { match_ := m, apply := .tuple "res2json" (tpl :: rest) } = .error e2 →
      env.template tpl
        (.obj [("res", res.toJVal), ("text", .str t), ("body", .obj []),
               ("errors", .arr [.obj [("type", .str "body"), ("message", .str e.message)]])])
          = .error e2) := by
  have hstate : res2jsonState env res =
      { text := t, body := .obj [], errors := [errorEntry "body" e] } := by
    simp [res2jsonState, htext, hparse]
  have hmain := applyRule_res2json env config res m tpl rest
  rw [hstate] at hmain
  simp only [res2jsonContext, errorEntry] at hmain
  refine ⟨hmain, ?_, ?_⟩
  · intro out hout
    rw [hmain, hout]
    rfl
  · intro e2 he2
    rw [hmain] at he2
    cases ht : env.template tpl
        (.obj [("res", res.toJVal), ("text", .str t), ("body", .obj []),
               ("errors", .arr [.obj [("type", .str "body"), ("message", .str e.message)]])])
      with
    | error e3 =>
      rw [ht] at he2
      simp only [Except.map] at he2
      cases he2
      rfl
    | ok out =>
      rw [ht] at he2
      simp only [Except.map] at he2
      cases he2

/-- C11 on the scenario of the specification: the text `not json` makes the
rule `['res2json', {err: true, msg: '{{ text }}'}]` return `{err: true, msg:
'not json'}`; nothing is raised. -/
theorem res2json_malformed_body_witness :
    notJsonResponse.text = .ok "not json" ∧
    exampleEnv.jsonParse "not json" = .error ⟨"SyntaxError", "Unexpected token"⟩ ∧
    (res2jsonState exampleEnv notJsonResponse).errors =
      [.obj [("type", .str "body"), ("message", .str "Unexpected token")]] ∧
    applyRule exampleEnv grabConfig notJsonResponse
      { match_ := .tuple "statusError" [], apply := .tuple "res2json" [errorShape] } =
      .ok (.data (.obj [("err", .bool true), ("msg", .str "not json")])) := by
  refine ⟨rfl, rfl, rfl, ?_⟩
  exact (res2json_malformed_body exampleEnv grabConfig notJsonResponse
    (.tuple "statusError" []) errorShape [] "not json" ⟨"SyntaxError", "Unexpected token"⟩
    rfl rfl).2.1 _ rfl

/-- C11 as stated fails: the text `not json` is read and is not JSON, and the
rule `['res2json', tpl]` raises all the same when the renderer raises, the
call of the renderer being outside the two `try` blocks. -/
theorem res2json_raises_with_renderer :
    notJsonResponse.text = .ok "not json" ∧
    raisingTemplateEnv.jsonParse "not json" = .error ⟨"SyntaxError", "Unexpected token"⟩ ∧
    applyRule raisingTemplateEnv grabConfig notJsonResponse
      { match_ := .tuple "statusError" [], apply := .tuple "res2json" [errorShape] } =
      .error ⟨"Error", "render failed"⟩ ∧
    (¬ ∃ v, applyRule raisingTemplateEnv grabConfig notJsonResponse
      { match_ := .tuple "statusError" [], apply := .tuple "res2json" [errorShape] } =
      .ok v) := by
  have h : applyRule raisingTemplateEnv grabConfig notJsonResponse
      { match_ := .tuple "statusError" [], apply := .tuple "res2json" [errorShape] } =
      .error ⟨"Error", "render failed"⟩ := rfl
  refine ⟨rfl, rfl, h, ?_⟩
  rintro ⟨v, hv⟩
  rw [h] at hv
  cases hv

/-! ## The `value` applier -/

/-- C12: a rule whose apply is `['value', v]` returns exactly `v`, for any two
responses, whatever their bodies, and for any two environments: no template
is rendered, no path is resolved, and no response reader decides the result. -/
theorem value_applier_literal (env1 env2 : Env) (config1 config2 : Config)
    (res1 res2 : Response) (m : MatchSpec) (v : JVal) (rest : List JVal) :
    applyRule env1 config1 res1 { match_ := m, apply := .tuple "value" (v :: rest) } =
      .ok (.data v) ∧
    applyRule env2 config2 res2 { match_ := m, apply := .tuple "value" (v :: rest) } =
      .ok (.data v) ∧
    ruleApply.value ⟨config1, { match_ := m, apply := .tuple "value" (v :: rest) }, res1⟩ =
      ruleApply.value ⟨config2, { match_ := m, apply := .tuple "value" (v :: rest) }, res2⟩ :=
  ⟨rfl, rfl, rfl⟩

/-! ## Failures of the body read -/

/-- The `json` applier raises the error of `res.json()` before anything else. -/
theorem applyRule_json_error (env : Env) (config : Config) (res : Response) (rule : Rule)
    (args : List JVal) (e : JErr) (happly : rule.apply = .tuple "json" args)
    (hjson : res.json = .error e) :
    applyRule env config res rule = .error e := by
  have hres : resolveApplier env rule = some (ruleApply.json env) := by
    unfold resolveApplier
    rw [happly]
    rfl
  simp only [applyRule, hres, ruleApply.json, hjson, bind, Except.bind]

/-- C13: when `res.json()` fails with `e`, a rule whose apply is `['json',
...]` fails with `e`, whatever `dotted` and `template` are (they do not
decide the outcome, nothing catches the error); `applyRules` fails with `e`
when such a rule is selected, and in particular when every custom rule is
rejected and the fallback is selected. -/
theorem json_applier_propagates (env env2 : Env) (config : Config) (res : Response)
    (m : MatchSpec) (args : List JVal) (e : JErr) (hjson : res.json = .error e) :
    applyRule env config res { match_ := m, apply := .tuple "json" args } = .error e ∧
    applyRule env2 config res { match_ := m, apply := .tuple "json" args } = .error e ∧
    (∀ rule args2, selectRule env config res = .ok (some rule) →
      rule.apply = .tuple "json" args2 → applyRules env config res = .error e) ∧
    ((∀ r ∈ config.rules.getD [], ruleMatches env config res r = .ok false) →
      applyRules env config res = .error e) := by
  refine ⟨applyRule_json_error env config res _ args e rfl hjson,
    applyRule_json_error env2 config res _ args e rfl hjson, ?_, ?_⟩
  · intro rule args2 hsel happly
    rw [applyRules_of_select env config res rule hsel]
    exact applyRule_json_error env config res rule args2 e happly hjson
  · intro hnone
    have hsel : selectRule env config res = .ok (some (fallbackRule config)) := by
      unfold selectRule
      rw [find_eq_some_iff]
      exact ⟨config.rules.getD [], [], rfl, hnone, ruleMatches_fallback env config res⟩
    rw [applyRules_of_select env config res _ hsel]
    exact applyRule_json_error env config res _ _ e rfl hjson

/-- C13 on an example: the body of `missingResponse` cannot be read, and the
fallback of `{grab: 'data.id'}` fails with the reader's error. -/
theorem json_applier_propagates_witness :
    missingResponse.json = .error ⟨"Error", "no body"⟩ ∧
    applyRule exampleEnv grabConfig missingResponse
      { match_ := .tuple "all" [], apply := .tuple "json" [.str "data.id", .str "x"] } =
      .error ⟨"Error", "no body"⟩ ∧
    applyRules exampleEnv grabConfig missingResponse = .error ⟨"Error", "no body"⟩ := by
  have h := json_applier_propagates exampleEnv raisingEnv grabConfig missingResponse
    (.tuple "all" []) [.str "data.id", .str "x"] ⟨"Error", "no body"⟩ rfl
  refine ⟨rfl, h.1, h.2.2.2 ?_⟩
  intro r hr
  simp [grabConfig] at hr

/-! ## Applier resolution -/

/-- C14: on the rule the scan selected, a callable `apply` is the applier,
otherwise the entry `ruleApply[apply[0]]` is, and the outcome of `applyRules`,
value or raised error, is the outcome of that applier on `{config, rule,
res}` with the given config, the selected rule and the given response; with no
entry there is no applier and the guard raises. -/
theorem applyRules_invokes_resolved_applier (env : Env) (config : Config) (res : Response)
    (rule : Rule) (hsel : selectRule env config res = .ok (some rule)) :
    (∀ fn, rule.apply = .callable fn →
      applyRules env config res = env.call fn ⟨config, rule, res⟩) ∧
    (∀ kind args handler, rule.apply = .tuple kind args → ruleApply env kind = some handler →
      applyRules env config res = handler ⟨config, rule, res⟩) ∧
    (∀ kind args, rule.apply = .tuple kind args → ruleApply env kind = none →
      applyRules env config res = .error (unexpectedApply rule)) := by
  rw [applyRules_of_select env config res rule hsel]
  refine ⟨?_, ?_, ?_⟩
  · intro fn happly
    simp only [applyRule, resolveApplier, happly]
  · intro kind args handler happly hentry
    simp only [applyRule, resolveApplier, happly, hentry]
  · intro kind args happly hentry
    simp only [applyRule, resolveApplier, happly, hentry]

/-- C14 on an example: the selected rule has the function `({ res }) =>
res.status` as its `apply`, and `applyRules` returns what that function
returns on the context, the status 200. -/
theorem applyRules_invokes_resolved_applier_witness :
    selectRule statusEnv callableApplyConfig idResponse =
      .ok (some { match_ := .tuple "all" [], apply := .callable 0 }) ∧
    applyRules statusEnv callableApplyConfig idResponse =
      statusEnv.call 0
        ⟨callableApplyConfig, { match_ := .tuple "all" [], apply := .callable 0 }, idResponse⟩ ∧
    applyRules statusEnv callableApplyConfig idResponse = .ok (.data (.num 200)) := by
  have hsel : selectRule statusEnv callableApplyConfig idResponse =
      .ok (some { match_ := .tuple "all" [], apply := .callable 0 }) := rfl
  have h := (applyRules_invokes_resolved_applier statusEnv callableApplyConfig idResponse
    _ hsel).1 0 rfl
  exact ⟨hsel, h, h.trans rfl⟩

/-! ## The `errors` list of `res2json` -/

/-- The state of `res2json` when the text is read and parses. -/
theorem res2jsonState_ok (env : Env) (res : Response) (t : String) (b : JVal)
    (ht : res.text = .ok t) (hp : env.jsonParse t = .ok b) :
    res2jsonState env res = { text := t, body := b, errors := [] } := by
  simp [res2jsonState, ht, hp]

/-- The state of `res2json` when the text is read and does not parse. -/
theorem res2jsonState_parse_error (env : Env) (res : Response) (t : String) (e : JErr)
    (ht : res.text = .ok t) (hp : env.jsonParse t = .error e) :
    res2jsonState env res = { text := t, body := .obj [], errors := [errorEntry "body" e] } := by
  simp [res2jsonState, ht, hp]

/-- The state of `res2json` when the text read fails and the empty string
does not parse. -/
theorem res2jsonState_read_error (env : Env) (res : Response) (e1 e2 : JErr)
    (ht : res.text = .error e1) (hp : env.jsonParse "" = .error e2) :
    res2jsonState env res =
      { text := "", body := .obj [],
        errors := [errorEntry "text" e1, errorEntry "body" e2] } := by
  simp [res2jsonState, ht, hp]

/-- C15: with `JSON.parse` raising on the empty string, as the built-in does,
the `errors` list that `res2json` renders has at most two entries and is
`[]`, `[body entry]` or `[text entry, body entry]`, so a `text` entry comes
before a `body` entry; it is empty exactly when the text is read and parses;
and when the text read fails it is `[text entry, body entry]`, with `text`
the empty string and `body` the empty object, the parse having been tried on
the empty string. -/
theorem res2json_errors_shape (env : Env) (config : Config) (res : Response)
    (m : MatchSpec) (tpl : JVal) (rest : List JVal)
    (hempty : ∃ e, env.jsonParse "" = .error e) :
    applyRule env config res { match_ := m, apply := .tuple "res2json" (tpl :: rest) } =
      (env.template tpl
        (.obj [("res", res.toJVal), ("text", .str (res2jsonState env res).text),
               ("body", (res2jsonState env res).body),
               ("errors", .arr (res2jsonState env res).errors)])).map Value.data ∧
    (res2jsonState env res).errors.length ≤ 2 ∧
    ((res2jsonState env res).errors = [] ∨
      (∃ e : JErr, (res2jsonState env res).errors =
        [.obj [("type", .str "body"), ("message", .str e.message)]]) ∨
      (∃ e1 e2 : JErr, (res2jsonState env res).errors =
        [.obj [("type", .str "text"), ("message", .str e1.message)],
         .obj [("type", .str "body"), ("message", .str e2.message)]])) ∧
    ((res2jsonState env res).errors = [] ↔
      ∃ t b, res.text = .ok t ∧ env.jsonParse t = .ok b) ∧
    (∀ e1, res.text = .error e1 →
      ∃ e2, env.jsonParse "" = .error e2 ∧
        (res2jsonState env res).errors =
          [.obj [("type", .str "text"), ("message", .str e1.message)],
           .obj [("type", .str "body"), ("message", .str e2.message)]] ∧
        (res2jsonState env res).text = "" ∧
        (res2jsonState env res).body = .obj []) := by
  obtain ⟨e0, he0⟩ := hempty
  refine ⟨applyRule_res2json env config res m tpl rest, ?_, ?_, ?_, ?_⟩
  · cases ht : res.text with
    | error e1 => rw [res2jsonState_read_error env res e1 e0 ht he0]; simp
    | ok t =>
      cases hp : env.jsonParse t with
      | error e => rw [res2jsonState_parse_error env res t e ht hp]; simp
      | ok b => rw [res2jsonState_ok env res t b ht hp]; simp
  · cases ht : res.text with
    | error e1 =>
      rw [res2jsonState_read_error env res e1 e0 ht he0]
      exact Or.inr (Or.inr ⟨e1, e0, rfl⟩)
    | ok t =>
      cases hp : env.jsonParse t with
      | error e =>
        rw [res2jsonState_parse_error env res t e ht hp]
        exact Or.inr (Or.inl ⟨e, rfl⟩)
      | ok b =>
        rw [res2jsonState_ok env res t b ht hp]
        exact Or.inl rfl
  · cases ht : res.text with
    | error e1 =>
      rw [res2jsonState_read_error env res e1 e0 ht he0]
      constructor
      · intro h; cases h
      · rintro ⟨t, b, h, _⟩; cases h
    | ok t =>
      cases hp : env.jsonParse t with
      | error e =>
        rw [res2jsonState_parse_error env res t e ht hp]
        constructor
        · intro h; cases h
        · rintro ⟨t2, b, h, hb⟩
          cases h
          rw [hp] at hb; cases hb
      | ok b =>
        rw [res2jsonState_ok env res t b ht hp]
        exact ⟨fun _ => ⟨t, b, rfl, hp⟩, fun _ => rfl⟩
  · intro e1 ht
    rw [res2jsonState_read_error env res e1 e0 ht he0]
    exact ⟨e0, he0, rfl, rfl, rfl⟩

/-- C15 on an example: the text of `missingResponse` cannot be read, and the
state of `res2json` has the two entries, `text` first, with the empty text
and the empty object. -/
theorem res2json_errors_shape_witness :
    (∃ e, exampleEnv.jsonParse "" = .error e) ∧
    missingResponse.text = .error ⟨"Error", "no body"⟩ ∧
    (res2jsonState exampleEnv missingResponse).errors =
      [.obj [("type", .str "text"), ("message", .str "no body")],
       .obj [("type", .str "body"), ("message", .str "Unexpected token")]] ∧
    (res2jsonState exampleEnv missingResponse).errors.length ≤ 2 := by
  have h := res2json_errors_shape exampleEnv grabConfig missingResponse (.tuple "all" [])
    errorShape [] ⟨_, rfl⟩
  exact ⟨⟨_, rfl⟩, rfl, rfl, h.2.1⟩

/-! ## Selection and the status -/

/-- Two callbacks that agree on every element of a list give the same scan. -/
theorem find_congr {α : Type} (p q : α → Except JErr Bool) (xs : List α)
    (h : ∀ x ∈ xs, p x = q x) : find p xs = find q xs := by
  induction xs with
  | nil => rfl
  | cons a as ih =>
    have ha : p a = q a := h a (List.mem_cons_self _ _)
    have hrest : find p as = find q as := ih fun x hx => h x (List.mem_cons_of_mem _ hx)
    simp only [find, ha, hrest]

/-- The truthiness of what an inherited member returns does not depend on
the context it is called on. -/
theorem objectPrototypeCall_truthy (key : String) (ctx1 ctx2 : Ctx) :
    (objectPrototypeCall key ctx1).map Value.truthy =
      (objectPrototypeCall key ctx2).map Value.truthy := by
  unfold objectPrototypeCall
  split_ifs <;> rfl

/-- A named matcher reads nothing of the response but its status. -/
theorem ruleMatches_status_only (env : Env) (config : Config) (res1 res2 : Response)
    (rule : Rule) (kind : String) (args : List JVal)
    (hm : rule.match_ = .tuple kind args) (hs : res1.status = res2.status) :
    ruleMatches env config res1 rule = ruleMatches env config res2 rule := by
  obtain ⟨m, a⟩ := rule
  simp only at hm
  subst hm
  by_cases h1 : kind = "all"
  · subst h1; rfl
  by_cases h2 : kind = "status"
  · subst h2
    show (ruleMatcher.status _).bind _ = (ruleMatcher.status _).bind _
    simp only [ruleMatcher.status, hs]
  by_cases h3 : kind = "statusError"
  · subst h3
    have e1 : ruleMatches env config res1
        { match_ := .tuple "statusError" args, apply := a } =
        .ok (decide (res1.status ≥ 400)) := rfl
    have e2 : ruleMatches env config res2
        { match_ := .tuple "statusError" args, apply := a } =
        .ok (decide (res2.status ≥ 400)) := rfl
    rw [e1, e2, hs]
  have hown : kind ∉ matcherNames := by simp [matcherNames, h1, h2, h3]
  by_cases hp : kind ∈ objectPrototypeKeys
  · have hlk : List.lookup kind
        [("all", ruleMatcher.all), ("status", ruleMatcher.status),
         ("statusError", ruleMatcher.statusError)] = none :=
      lookup_eq_none_of_not_mem _ kind hown
    have hl : ruleMatcher kind = some (objectPrototypeCall kind) := by
      simp [ruleMatcher, objectLookup, hp, hlk]
    simp only [ruleMatches, resolveMatcher, hl]
    have := objectPrototypeCall_truthy kind
      ⟨config, { match_ := .tuple kind args, apply := a }, res1⟩
      ⟨config, { match_ := .tuple kind args, apply := a }, res2⟩
    simpa [Except.map, bind, Except.bind, pure, Except.pure] using this
  · simp [ruleMatches, resolveMatcher, ruleMatcher_eq_none kind hown hp]

/-- C16: when every custom rule has a tagged-tuple matcher and two responses
have the same status, every rule of the effective list gets the same verdict
on both, the scan has the same outcome, and a position of the effective list
is the selected one for the first response exactly when it is for the second:
the status text and the body play no part. -/
theorem selection_depends_only_on_status (env : Env) (config : Config)
    (res1 res2 : Response)
    (hnamed : ∀ r ∈ config.rules.getD [], ∃ kind args, r.match_ = .tuple kind args)
    (hstatus : res1.status = res2.status) :
    (∀ r ∈ effectiveRules config,
      ruleMatches env config res1 r = ruleMatches env config res2 r) ∧
    selectRule env config res1 = selectRule env config res2 ∧
    (∀ pre rule post, effectiveRules config = pre ++ rule :: post →
      (((∀ r ∈ pre, ruleMatches env config res1 r = .ok false) ∧
          ruleMatches env config res1 rule = .ok true) ↔
        ((∀ r ∈ pre, ruleMatches env config res2 r = .ok false) ∧
          ruleMatches env config res2 rule = .ok true))) := by
  have hall : ∀ r ∈ effectiveRules config,
      ruleMatches env config res1 r = ruleMatches env config res2 r := by
    intro r hr
    simp only [effectiveRules, List.mem_append, List.mem_singleton] at hr
    rcases hr with hr | hr
    · obtain ⟨kind, args, hm⟩ := hnamed r hr
      exact ruleMatches_status_only env config res1 res2 r kind args hm hstatus
    · subst hr
      rfl
  refine ⟨hall, find_congr _ _ _ hall, ?_⟩
  intro pre rule post hsplit
  have hpre : ∀ r ∈ pre, r ∈ effectiveRules config := by
    intro r hr
    rw [hsplit]
    exact List.mem_append_left _ hr
  have hrule : rule ∈ effectiveRules config := by
    rw [hsplit]
    simp
  constructor
  · rintro ⟨h1, h2⟩
    exact ⟨fun r hr => (hall r (hpre r hr)) ▸ h1 r hr, (hall rule hrule) ▸ h2⟩
  · rintro ⟨h1, h2⟩
    exact ⟨fun r hr => (hall r (hpre r hr)).symm ▸ h1 r hr, (hall rule hrule).symm ▸ h2⟩

/-- C16 on an example: two 404 responses with different status texts and
bodies select the same rule, the first one. -/
theorem selection_depends_only_on_status_witness :
    missingResponse.status = otherMissingResponse.status ∧
    selectRule exampleEnv twoRuleConfig missingResponse =
      selectRule exampleEnv twoRuleConfig otherMissingResponse ∧
    selectRule exampleEnv twoRuleConfig otherMissingResponse = .ok (some firstRule) := by
  have h := selection_depends_only_on_status exampleEnv twoRuleConfig missingResponse
    otherMissingResponse
    (by
      intro r hr
      simp only [twoRuleConfig, Option.getD, List.mem_cons, List.mem_singleton,
        List.not_mem_nil, or_false] at hr
      rcases hr with hr | hr
      · exact ⟨"status", [.arr [.num 404]], by rw [hr]; rfl⟩
      · exact ⟨"statusError", [], by rw [hr]; rfl⟩)
    rfl
  exact ⟨rfl, h.2.1, rfl⟩

/-! ## The status-error policy -/

/-- C17: for the config whose only custom rule is `{match: ['statusError'],
apply: ['statusError']}`, whatever `grab` and `shape` are: when `res.status >=
400` the custom rule is selected and `applyRules` raises the status error;
when `res.status < 400` the fallback is selected and `applyRules` is the
`json` applier on the fallback rule, with `(config.grab, config.shape)`; the
custom rule is the selected one if and only if `res.status >= 400`. -/
theorem applyRules_status_error_policy (env : Env) (grab shape : JVal) (res : Response) :
    (res.status ≥ 400 →
      selectRule env (errorStatusConfig grab shape) res = .ok (some errorStatusRule) ∧
      applyRules env (errorStatusConfig grab shape) res =
        .error ⟨"Error", toString res.status ++ " " ++ res.statusText⟩ ∧
      applyRules env (errorStatusConfig grab shape) res =
        ruleApply.statusError ⟨errorStatusConfig grab shape, errorStatusRule, res⟩) ∧
    (res.status < 400 →
      selectRule env (errorStatusConfig grab shape) res =
        .ok (some (fallbackRule (errorStatusConfig grab shape))) ∧
      applyRules env (errorStatusConfig grab shape) res =
        ruleApply.json env
          ⟨errorStatusConfig grab shape,
           { match_ := .tuple "all" [], apply := .tuple "json" [grab, shape] }, res⟩) ∧
    (selectRule env (errorStatusConfig grab shape) res = .ok (some errorStatusRule) ↔
      res.status ≥ 400) := by
  have hmatch : ruleMatches env (errorStatusConfig grab shape) res errorStatusRule =
      .ok (decide (res.status ≥ 400)) := rfl
  have hhigh : res.status ≥ 400 →
      selectRule env (errorStatusConfig grab shape) res = .ok (some errorStatusRule) := by
    intro h
    unfold selectRule
    rw [find_eq_some_iff]
    refine ⟨[], [fallbackRule (errorStatusConfig grab shape)], rfl, by simp, ?_⟩
    rw [hmatch]
    simp [h]
  have hlow : res.status < 400 →
      selectRule env (errorStatusConfig grab shape) res =
        .ok (some (fallbackRule (errorStatusConfig grab shape))) := by
    intro h
    unfold selectRule
    rw [find_eq_some_iff]
    refine ⟨[errorStatusRule], [], rfl, ?_, ruleMatches_fallback env _ res⟩
    intro r hr
    rw [List.mem_singleton] at hr
    rw [hr, hmatch]
    simp [h]
  refine ⟨?_, ?_, ?_⟩
  · intro h
    have hsel := hhigh h
    refine ⟨hsel, ?_, ?_⟩
    · rw [applyRules_of_select env _ res _ hsel]; rfl
    · rw [applyRules_of_select env _ res _ hsel]; rfl
  · intro h
    have hsel := hlow h
    refine ⟨hsel, ?_⟩
    rw [applyRules_of_select env _ res _ hsel]
    rfl
  · constructor
    · intro hsel
      by_contra hnot
      have hl := hlow (Int.lt_of_not_ge hnot)
      rw [hl] at hsel
      have happly : (fallbackRule (errorStatusConfig grab shape)).apply =
          errorStatusRule.apply := by
        injection hsel with h1
        injection h1 with h2
        rw [h2]
      simp [fallbackRule, errorStatusRule] at happly
    · exact hhigh

/-- C17 on examples: status 404 raises "404 Missing"; status 200 with the body
`{data: {id: 42}}` and `grab` `data.id` returns 42. -/
theorem applyRules_status_error_policy_witness :
    applyRules exampleEnv (errorStatusConfig (.str "data.id") .undefined) missingResponse =
      .error ⟨"Error", "404 Missing"⟩ ∧
    applyRules exampleEnv (errorStatusConfig (.str "data.id") .undefined) idResponse =
      .ok (.data (.num 42)) := by
  have h1 := (applyRules_status_error_policy exampleEnv (.str "data.id") .undefined
    missingResponse).1 (by decide)
  have h2 := (applyRules_status_error_policy exampleEnv (.str "data.id") .undefined
    idResponse).2.1 (by decide)
  exact ⟨h1.2.1.trans rfl, h2.2.trans rfl⟩

end FetchResolver
